import Mathlib

/-!
Verification development for the holodok22bot persistence engine.

The definitions below are a shallow embedding of the Python sources:
`persistence.py` (`YDBPersistence`, `PersistentDispatcher`), `index.py`
(`process_update`), `database.py` (`YDBClient`) and the flag-setting handlers
of `handlers.py` (`on_unknown`, `on_error`).  Python dictionaries are embedded
as association lists with unique keys, iterated and updated in insertion
order, exactly as CPython dictionaries behave.  JSON values (the bot stores
its per-user document as a JSON blob) are embedded by the inductive `Val`.
-/

namespace Holodok

set_option maxRecDepth 8192

/-- A JSON value as parsed by `ujson.loads` / produced by `ujson.dumps`.
`Val.null` doubles as the Python value `None`, which is what JSON `null`
parses to. -/
inductive Val where
  | null : Val
  | bool (b : Bool) : Val
  | num (n : Int) : Val
  | str (s : String) : Val
  | arr (elems : List Val) : Val
  | obj (fields : List (String × Val)) : Val

mutual

/-- Decidable equality of JSON values (the deriving handler does not support
this nested inductive, so it is spelled out). -/
def Val.decEq : (a b : Val) → Decidable (a = b)
  | Val.null, Val.null => isTrue rfl
  | Val.null, Val.bool _ => isFalse nofun
  | Val.null, Val.num _ => isFalse nofun
  | Val.null, Val.str _ => isFalse nofun
  | Val.null, Val.arr _ => isFalse nofun
  | Val.null, Val.obj _ => isFalse nofun
  | Val.bool _, Val.null => isFalse nofun
  | Val.bool a, Val.bool b =>
      if h : a = b then isTrue (by rw [h]) else
        isFalse (by intro hc; injection hc with h1; exact h h1)
  | Val.bool _, Val.num _ => isFalse nofun
  | Val.bool _, Val.str _ => isFalse nofun
  | Val.bool _, Val.arr _ => isFalse nofun
  | Val.bool _, Val.obj _ => isFalse nofun
  | Val.num _, Val.null => isFalse nofun
  | Val.num _, Val.bool _ => isFalse nofun
  | Val.num a, Val.num b =>
      if h : a = b then isTrue (by rw [h]) else
        isFalse (by intro hc; injection hc with h1; exact h h1)
  | Val.num _, Val.str _ => isFalse nofun
  | Val.num _, Val.arr _ => isFalse nofun
  | Val.num _, Val.obj _ => isFalse nofun
  | Val.str _, Val.null => isFalse nofun
  | Val.str _, Val.bool _ => isFalse nofun
  | Val.str _, Val.num _ => isFalse nofun
  | Val.str a, Val.str b =>
      if h : a = b then isTrue (by rw [h]) else
        isFalse (by intro hc; injection hc with h1; exact h h1)
  | Val.str _, Val.arr _ => isFalse nofun
  | Val.str _, Val.obj _ => isFalse nofun
  | Val.arr _, Val.null => isFalse nofun
  | Val.arr _, Val.bool _ => isFalse nofun
  | Val.arr _, Val.num _ => isFalse nofun
  | Val.arr _, Val.str _ => isFalse nofun
  | Val.arr xs, Val.arr ys =>
      match Val.decEqList xs ys with
      | isTrue h => isTrue (by rw [h])
      | isFalse h => isFalse (by intro hc; injection hc with h1; exact h h1)
  | Val.arr _, Val.obj _ => isFalse nofun
  | Val.obj _, Val.null => isFalse nofun
  | Val.obj _, Val.bool _ => isFalse nofun
  | Val.obj _, Val.num _ => isFalse nofun
  | Val.obj _, Val.str _ => isFalse nofun
  | Val.obj _, Val.arr _ => isFalse nofun
  | Val.obj xs, Val.obj ys =>
      match Val.decEqObj xs ys with
      | isTrue h => isTrue (by rw [h])
      | isFalse h => isFalse (by intro hc; injection hc with h1; exact h h1)

/-- Decidable equality of JSON arrays. -/
def Val.decEqList : (xs ys : List Val) → Decidable (xs = ys)
  | [], [] => isTrue rfl
  | [], _ :: _ => isFalse nofun
  | _ :: _, [] => isFalse nofun
  | x :: xs, y :: ys =>
      match Val.decEq x y, Val.decEqList xs ys with
      | isTrue h1, isTrue h2 => isTrue (by rw [h1, h2])
      | isFalse h1, _ => isFalse (by intro hc; injection hc with hh _; exact h1 hh)
      | _, isFalse h2 => isFalse (by intro hc; injection hc with _ ht; exact h2 ht)

/-- Decidable equality of JSON objects. -/
def Val.decEqObj : (xs ys : List (String × Val)) → Decidable (xs = ys)
  | [], [] => isTrue rfl
  | [], _ :: _ => isFalse nofun
  | _ :: _, [] => isFalse nofun
  | (k1, v1) :: xs, (k2, v2) :: ys =>
      if hk : k1 = k2 then
        match Val.decEq v1 v2, Val.decEqObj xs ys with
        | isTrue h1, isTrue h2 => isTrue (by rw [hk, h1, h2])
        | isFalse h1, _ =>
            isFalse (by
              intro hc
              injection hc with hh ht
              injection hh with hk1 hv1
              exact h1 hv1)
        | _, isFalse h2 => isFalse (by intro hc; injection hc with _ ht; exact h2 ht)
      else
        isFalse (by
          intro hc
          injection hc with hh ht
          injection hh with hk1 hv1
          exact hk hk1)

end

instance : DecidableEq Val := Val.decEq

/-- A Python dict with string keys holding JSON values: the per-user scratch
mapping (`context.user_data`). -/
abbrev Scratch := List (String × Val)

/-- A parsed top-level persistence document: the JSON object stored in the
`persistence_data` cell (keys such as "user_data" and "conversations"). -/
abbrev DocObj := List (String × Val)

/-- Python `d.get(k)`: first value bound to `k`, or `None` (here: `none`)
when absent. -/
def dictGet {β : Type} : List (String × β) → String → Option β
  | [], _ => none
  | x :: rest, k => if x.1 = k then some x.2 else dictGet rest k

/-- Python `d.get(k)` for integer keys (user ids). -/
def natGet {β : Type} : List (Nat × β) → Nat → Option β
  | [], _ => none
  | x :: rest, k => if x.1 = k then some x.2 else natGet rest k

/-- Python `d[k] = v`: update the binding in place when the key is present
(CPython keeps its position), append it otherwise. -/
def dictSet {β : Type} : List (String × β) → String → β → List (String × β)
  | [], k, v => [(k, v)]
  | x :: rest, k, v => if x.1 = k then (k, v) :: rest else x :: dictSet rest k v

/-- Python `d[k] = v` for integer keys. -/
def natSet {β : Type} : List (Nat × β) → Nat → β → List (Nat × β)
  | [], k, v => [(k, v)]
  | x :: rest, k, v => if x.1 = k then (k, v) :: rest else x :: natSet rest k v

/-- Python `d.pop(k, default)`, key-removal part.  A CPython dict holds each
key at most once, so removing every occurrence from the association list is
the same operation on well-formed dictionaries. -/
def dictRemove {β : Type} : List (String × β) → String → List (String × β)
  | [], _ => []
  | x :: rest, k => if x.1 = k then dictRemove rest k else x :: dictRemove rest k

theorem dictGet_dictSet_self {β : Type} (d : List (String × β)) (k : String) (v : β) :
    dictGet (dictSet d k v) k = some v := by
  induction d with
  | nil => simp [dictGet, dictSet]
  | cons x rest ih =>
      by_cases h : x.1 = k
      · simp [dictGet, dictSet, h]
      · simp [dictGet, dictSet, h, ih]

theorem dictGet_dictSet_ne {β : Type} (d : List (String × β)) (k k' : String) (v : β)
    (h : k ≠ k') : dictGet (dictSet d k v) k' = dictGet d k' := by
  induction d with
  | nil => simp [dictGet, dictSet, h]
  | cons x rest ih =>
      by_cases hx : x.1 = k
      · simp [dictGet, dictSet, hx, h]
      · simp [dictGet, dictSet, hx, ih]

theorem natGet_natSet_self {β : Type} (d : List (Nat × β)) (k : Nat) (v : β) :
    natGet (natSet d k v) k = some v := by
  induction d with
  | nil => simp [natGet, natSet]
  | cons x rest ih =>
      by_cases h : x.1 = k
      · simp [natGet, natSet, h]
      · simp [natGet, natSet, h, ih]

theorem dictGet_dictRemove_self {β : Type} (d : List (String × β)) (k : String) :
    dictGet (dictRemove d k) k = none := by
  induction d with
  | nil => simp [dictGet, dictRemove]
  | cons x rest ih =>
      by_cases h : x.1 = k
      · simp [dictRemove, h, ih]
      · simp [dictGet, dictRemove, h, ih]

theorem dictGet_dictRemove_ne {β : Type} (d : List (String × β)) (k k' : String)
    (h : k ≠ k') : dictGet (dictRemove d k) k' = dictGet d k' := by
  induction d with
  | nil => simp [dictRemove]
  | cons x rest ih =>
      by_cases hx : x.1 = k
      · simp [dictGet, dictRemove, hx, h, ih]
      · simp [dictGet, dictRemove, hx, ih]

/-!
Persistence dictionaries.

`YDBPersistence` extends `telegram.ext.DictPersistence`; its mutable state is
`_user_data : user_id → scratch dict` and `_conversations : name → (key →
state)`.  With the enforced settings `per_user=True, per_chat=False,
per_message=False` the conversation key is the 1-tuple `(user_id,)`, embedded
here as the bare user id.  A state of Python `None` (recorded by
`ConversationHandler._update_state` on `END`) is `Val.null`.
-/

/-- In-memory state of the persistence object (`DictPersistence._user_data`
and `DictPersistence._conversations` as used by `YDBPersistence`). -/
structure PState where
  userData : List (Nat × Scratch)
  conversations : List (String × List (Nat × Val))
deriving DecidableEq

/-- Embeds `DictPersistence.update_user_data` (telegram.ext, v13): return
unchanged when the stored dict already equals `d`, else store `d` under
`uid`. -/
def update_user_data (p : PState) (uid : Nat) (d : Scratch) : PState :=
  if natGet p.userData uid = some d then p
  else { p with userData := natSet p.userData uid d }

/-- Embeds `DictPersistence.update_conversation` (telegram.ext, v13):
`self._conversations.setdefault(name, {})` inserts an empty dict for a fresh
name; then nothing happens when the currently stored state (absent = `None`)
already equals the new one, else the state is stored under the key. -/
def update_conversation (p : PState) (name : String) (key : Nat) (st : Val) : PState :=
  let convs1 :=
    if (dictGet p.conversations name).isSome then p.conversations
    else p.conversations ++ [(name, [])]
  let inner := (dictGet convs1 name).getD []
  if (natGet inner key).getD Val.null = st then { p with conversations := convs1 }
  else { p with conversations := dictSet convs1 name (natSet inner key st) }

/-- First half of `YDBPersistence.update_data` (merging a freshly fetched
document into the persistence dictionaries): the `'user_data'` section is
stored wholesale when present and not `null`.  Stored documents only ever
hold JSON objects in these sections, so the object fields are matched
directly. -/
def update_data_user (p : PState) (uid : Nat) (data : DocObj) : PState :=
  match dictGet data "user_data" with
  | some (Val.obj ud) => update_user_data p uid ud
  | _ => p

/-- Second half of `YDBPersistence.update_data`: each `'conversations'`
entry of the fetched document is pushed through `update_conversation`. -/
def update_data (p : PState) (uid : Nat) (data : DocObj) : PState :=
  match dictGet data "conversations" with
  | some (Val.obj cs) =>
      cs.foldl (fun q x => update_conversation q x.1 uid x.2) (update_data_user p uid data)
  | _ => update_data_user p uid data

/-- The `conversations_data` dict built by `YDBPersistence._dump_into_json`:
for every registered conversation name, in insertion order, the state stored
under `(user_id,)` — skipped when absent or `None` (Python `dict.get`
conflates the two). -/
def dumpStep (uid : Nat) (acc : List (String × Val)) (x : String × List (Nat × Val)) :
    List (String × Val) :=
  match natGet x.2 uid with
  | none => acc
  | some v => if v = Val.null then acc else dictSet acc x.1 v

/-- The loop of `_dump_into_json` over `self.conversations.items()`,
accumulating `conversations_data` with `dumpStep`. -/
def dumpConvs (p : PState) (uid : Nat) : List (String × Val) :=
  p.conversations.foldl (dumpStep uid) []

/-- Order-preserving filter of the per-user conversation states; coincides
with `dumpConvs` whenever the conversation names are distinct, which holds in
every reachable persistence state (Python dict keys are unique). -/
def convFilter (l : List (String × List (Nat × Val))) (uid : Nat) : List (String × Val) :=
  l.foldr
    (fun x acc =>
      match natGet x.2 uid with
      | none => acc
      | some v => if v = Val.null then acc else (x.1, v) :: acc)
    []

/-- Embeds `YDBPersistence._dump_into_json` (minus the final string
encoding): the `to_dump` dict gets the key `'user_data'` whenever
`self.user_data.get(user_id)` is not `None` — including an empty dict — and
the key `'conversations'` only when the filtered conversation dict is
non-empty (truthiness test `if conversations_data:`). -/
def dump_into_json (p : PState) (uid : Nat) : DocObj :=
  let d1 :=
    match natGet p.userData uid with
    | some ud => [("user_data", Val.obj ud)]
    | none => []
  let cs := dumpConvs p uid
  d1 ++ (if cs = [] then [] else [("conversations", Val.obj cs)])

/-- Embeds `PersistentDispatcher.end_conversations` together with
`ConversationHandler._update_state(new_state=END, ...)` (telegram.ext, v13):
for every registered conversation handler, the persistence layer records
state `None` for this user's key. -/
def end_conversations (p : PState) (names : List String) (uid : Nat) : PState :=
  names.foldl (fun q n => update_conversation q n uid Val.null) p

/-- Python truthiness of a JSON value, used by `if unknown_update` /
`if error_update` in `index.process_update`. -/
def truthy : Val → Bool
  | Val.null => false
  | Val.bool b => b
  | Val.num n => decide (n ≠ 0)
  | Val.str s => decide (s ≠ "")
  | Val.arr xs => decide (xs ≠ [])
  | Val.obj fs => decide (fs ≠ [])

/-- Embeds the flag consumption in `index.process_update`:
`dispatcher.user_data.get(uid, {}).pop('UNKNOWN', False)` followed by the
same for `'ERROR'`.  After `Dispatcher.update_persistence` the dispatcher's
per-user dict and `persistence._user_data[uid]` are the same Python object,
so the pops are visible to the persistence state as well. -/
def popFlags (p : PState) (uid : Nat) : Bool × Bool × PState :=
  match natGet p.userData uid with
  | none => (false, false, p)
  | some s =>
      let u := ((dictGet s "UNKNOWN").map truthy).getD false
      let s1 := dictRemove s "UNKNOWN"
      let e := ((dictGet s1 "ERROR").map truthy).getD false
      let s2 := dictRemove s1 "ERROR"
      (u, e, { p with userData := natSet p.userData uid s2 })

/-- Net effect of `Dispatcher.process_update` (telegram.ext, v13) on the
persistence state for this user.  `CallbackContext.from_update` materializes
`dispatcher.user_data[uid]` (a `defaultdict`, so an empty dict when absent);
the handlers' combined mutation of that scratch dict is the parameter `mutate`;
conversation handlers record their transitions through
`persistence.update_conversation` (the parameter `convUpd`, states of
`Val.null` standing for `None` on `END`); the closing
`Dispatcher.update_persistence` pushes the mutated scratch dict into
`persistence._user_data` (a catch-all `TypeHandler` is registered, so every
update counts as handled). -/
def dispatchEffect (p : PState) (uid : Nat) (mutate : Scratch → Scratch)
    (convUpd : List (String × Val)) : PState :=
  let s0 := (natGet p.userData uid).getD []
  let p1 := convUpd.foldl (fun q x => update_conversation q x.1 uid x.2) p
  update_user_data p1 uid (mutate s0)

/-!
The users table and the store adapter (`database.py` / `YDBPersistence`).

A JSON cell is embedded by its parse (the blob written by
`YDBPersistence.update_database` is `json.dumps` of the document, and
`YDBPersistence.get_data` reads it back through `json.loads`, a faithful
encode/decode pair on these documents).
-/

/-- One row of the `users` table (`database.py` column constants minus the
key column `user_id`, which keys the table association list). -/
structure UserRow where
  first_name : Option String
  last_name : Option String
  username : Option String
  usage : Option Int
  persistence_data : Option DocObj
  meetings_ts : Option String
deriving DecidableEq

/-- Rows matched by `WHERE user_id = $user_id`, in table order. -/
def selectRows : List (Nat × UserRow) → Nat → List UserRow
  | [], _ => []
  | x :: rest, uid => if x.1 = uid then x.2 :: selectRows rest uid else selectRows rest uid

/-- Row-count handling of `YDBPersistence.get_data` applied to the rows of
the single `SELECT`: no row or a `NULL` cell yields the empty document, one
row with a JSON cell yields its parse, more than one row raises
`LookupError`. -/
def get_data_result : List (Option DocObj) → Except String DocObj
  | [] => Except.ok []
  | [none] => Except.ok []
  | [some d] => Except.ok d
  | _ :: _ :: _ => Except.error "Table users has more than 1 row for user id"

/-- Effect of the fault-path `UPDATE` of `YDBPersistence.update_database`
(`SET persistence_data = NULL, meetings_ts = NULL WHERE user_id = $user_id`)
on the table. -/
def apply_wipe (tbl : List (Nat × UserRow)) (uid : Nat) : List (Nat × UserRow) :=
  tbl.map (fun x =>
    if x.1 = uid then
      (x.1, { x.2 with persistence_data := none, meetings_ts := none })
    else x)

/-- Effect of the normal-path `UPDATE` of `YDBPersistence.update_database`
(`SET persistence_data = $data WHERE user_id = $user_id`) on the table. -/
def apply_save (tbl : List (Nat × UserRow)) (uid : Nat) (d : DocObj) : List (Nat × UserRow) :=
  tbl.map (fun x =>
    if x.1 = uid then (x.1, { x.2 with persistence_data := some d }) else x)

/-!
Query shaping.  The adapter builds each query text by f-string interpolation
of column and table name constants only; user-supplied values travel in the
parameters dict of `YDBClient.execute_query` (which prepares the query and
binds them).  The strings below reproduce the f-strings of the source,
whitespace included.
-/

/-- Table name constant `YDBClient.users_table`. -/
def users_table : String := "users"

/-- Column name constant `YDBClient.user_id_column`. -/
def user_id_column : String := "user_id"

/-- Column name constant `YDBClient.data_column`. -/
def data_column : String := "persistence_data"

/-- Column name constant `YDBClient.meetings_ts_column`. -/
def meetings_ts_column : String := "meetings_ts"

/-- The `declarations` string of `YDBPersistence.get_data` and of
`YDBPersistence.update_database` before the save path extends it. -/
def user_id_declaration : String := "DECLARE $user_id AS Uint64;"

/-- Query text built by `YDBPersistence.get_data`. -/
def get_data_query : String :=
  "\n            " ++ user_id_declaration ++
  "\n            \n            SELECT " ++ data_column ++
  "\n            FROM " ++ users_table ++
  "\n            WHERE " ++ user_id_column ++ " = $user_id\n        "

/-- Query text built by the `error` branch of
`YDBPersistence.update_database`: the document cell and the meetings
timestamp cell are both set to `NULL`. -/
def wipe_query : String :=
  "\n                " ++ user_id_declaration ++
  "\n                \n                UPDATE " ++ users_table ++
  "\n                SET " ++ data_column ++ " = NULL, " ++ meetings_ts_column ++ " = NULL" ++
  "\n                WHERE " ++ user_id_column ++ " = $user_id\n            "

/-- Query text built by the normal branch of
`YDBPersistence.update_database` (`declarations` extended with
`DECLARE $data AS Json;`, the cell set to the bound `$data`). -/
def save_query : String :=
  "\n                " ++ (user_id_declaration ++ " DECLARE $data AS Json;") ++
  "\n                \n                UPDATE " ++ users_table ++
  "\n                SET " ++ data_column ++ " = $data" ++
  "\n                WHERE " ++ user_id_column ++ " = $user_id\n            "

/-- A value bound into a prepared query: a Uint64 user id or a JSON blob
(embedded by its parse). -/
inductive ParamVal where
  | uid (n : Nat) : ParamVal
  | json (d : DocObj) : ParamVal
deriving DecidableEq

/-- A query as handed to `YDBClient.execute_query`: the query text and the
parameters dict. -/
structure PreparedQuery where
  text : String
  params : List (String × ParamVal)
deriving DecidableEq

/-- The prepared read issued by `YDBPersistence.get_data`. -/
def readPrepared (uid : Nat) : PreparedQuery :=
  ⟨get_data_query, [("$user_id", ParamVal.uid uid)]⟩

/-- The prepared wipe issued by the `error` branch of
`YDBPersistence.update_database`. -/
def wipePrepared (uid : Nat) : PreparedQuery :=
  ⟨wipe_query, [("$user_id", ParamVal.uid uid)]⟩

/-- The prepared save issued by the normal branch of
`YDBPersistence.update_database`. -/
def savePrepared (uid : Nat) (d : DocObj) : PreparedQuery :=
  ⟨save_query, [("$user_id", ParamVal.uid uid), ("$data", ParamVal.json d)]⟩

/-- Recognizes the engine's persistence read query. -/
def isReadQuery (q : PreparedQuery) : Bool := decide (q.text = get_data_query)

/-- Recognizes the engine's persistence write queries (wipe or save). -/
def isWriteQuery (q : PreparedQuery) : Bool :=
  decide (q.text = wipe_query) || decide (q.text = save_query)

/-!
The invocation pipeline (`index.process_update` after a successful
`Update.de_json`): load persistence data, dispatch, pop the override flags,
refresh persistence and end all conversations when flagged, then issue the
single closing write.
-/

/-- Observable outcome of one webhook invocation: the persistence queries
issued, whether the invocation ran to completion (`false` when `get_data`
raised `LookupError`), the two popped override flags, the table after the
closing write, and the blob that write carried (`none` on the wipe path or
when no write happened). -/
structure InvResult where
  trace : List PreparedQuery
  ok : Bool
  unknown : Bool
  error : Bool
  finalTable : List (Nat × UserRow)
  written : Option DocObj

/-!
The next three definitions embed the body of `index.process_update` after a
successful load (the update has already parsed; the persistence object is a
`YDBPersistence`, as built at module import).  Each invocation starts from
fresh persistence dictionaries: `dispatcher.load_persistence_data` fetches
the document with one read query and merges it with
`YDBPersistence.update_data`; `Dispatcher.process_update` has the net effect
`dispatchEffect`; the override flags are popped; when one is set
`dispatcher.update_persistence` re-pushes the (already shared, now
flag-stripped) scratch dict; on `UNKNOWN` all registered conversations end;
finally `update_persistence_database` issues exactly one write: the wipe on
`ERROR`, otherwise the save of `_dump_into_json`.
-/

/-- Flag extraction of one invocation: dispatch over the freshly loaded
state, then pop the two override flags (`popFlags`), yielding
`(unknown, error, persistence state after the pops)`. -/
def invFlags (uid : Nat) (mutate : Scratch → Scratch) (convUpd : List (String × Val))
    (doc : DocObj) : Bool × Bool × PState :=
  popFlags (dispatchEffect (update_data ⟨[], []⟩ uid doc) uid mutate convUpd) uid

/-- The persistence state handed to `_dump_into_json` at the end of the
invocation: after the pops, a flagged invocation re-runs
`dispatcher.update_persistence` (a no-op on the already shared dict), and an
`UNKNOWN` invocation ends every registered conversation. -/
def invFinalState (uid : Nat) (mutate : Scratch → Scratch) (convUpd : List (String × Val))
    (convNames : List String) (doc : DocObj) : PState :=
  let res := invFlags uid mutate convUpd doc
  let p3 :=
    if res.1 || res.2.1 then
      update_user_data res.2.2 uid ((natGet res.2.2.userData uid).getD [])
    else res.2.2
  if res.1 then end_conversations p3 convNames uid else p3

def invocationCore (tbl : List (Nat × UserRow)) (uid : Nat)
    (mutate : Scratch → Scratch) (convUpd : List (String × Val))
    (convNames : List String) (doc : DocObj) : InvResult :=
  let res := invFlags uid mutate convUpd doc
  if res.2.1 then
    ⟨[readPrepared uid, wipePrepared uid], true, res.1, res.2.1, apply_wipe tbl uid, none⟩
  else
    let d := dump_into_json (invFinalState uid mutate convUpd convNames doc) uid
    ⟨[readPrepared uid, savePrepared uid d], true, res.1, res.2.1, apply_save tbl uid d,
      some d⟩

/-- The invocation: on `LookupError` from `get_data` the exception escapes
`process_update` (the surrounding `try` only guards update parsing), so the
trace stops at the single read; otherwise the loaded document feeds the rest
of the pipeline. -/
def invocation (tbl : List (Nat × UserRow)) (uid : Nat)
    (mutate : Scratch → Scratch) (convUpd : List (String × Val))
    (convNames : List String) : InvResult :=
  match get_data_result ((selectRows tbl uid).map (fun r => r.persistence_data)) with
  | Except.error _ =>
      ⟨[readPrepared uid], false, false, false, tbl, none⟩
  | Except.ok doc => invocationCore tbl uid mutate convUpd convNames doc

/-!
The router and the flag-setting handlers (`handlers.py`).
-/

/-- Net effect of `handlers.on_unknown` on the scratch dict: the seven
in-flight channel-post keys are popped and the `UNKNOWN` override flag is
set (the outbound reply has no effect on state). -/
def on_unknown_scratch (s : Scratch) : Scratch :=
  let s1 := dictRemove s "post_channel_message"
  let s2 := dictRemove s1 "post_channel_message_type"
  let s3 := dictRemove s2 "post_channel_file_id"
  let s4 := dictRemove s3 "post_channel_full_message"
  let s5 := dictRemove s4 "post_channel_public_footer"
  let s6 := dictRemove s5 "post_channel_private_footer"
  let s7 := dictRemove s6 "post_channel_footer_max_length"
  dictSet s7 "UNKNOWN" (Val.bool true)

/-- Net effect of `handlers.on_error` on the scratch dict: the `ERROR`
override flag is set. -/
def on_error_scratch (s : Scratch) : Scratch :=
  dictSet s "ERROR" (Val.bool true)

/-- First-match-wins dispatch within one handler group
(`Dispatcher.process_update`, telegram.ext v13): handlers are tried in
registration order and the first whose check succeeds runs. -/
def firstMatch {α : Type} : List ((α → Bool) × (Scratch → Scratch)) → α → Option (Scratch → Scratch)
  | [], _ => none
  | h :: rest, e => if h.1 e then some h.2 else firstMatch rest e

/-- Group 0 as assembled by `handlers.add_handlers`: the business handlers in
registration order, then the catch-all `TypeHandler(type=Update,
callback=on_unknown)`, whose check accepts every update. -/
def routeGroup0 {α : Type} (business : List ((α → Bool) × (Scratch → Scratch))) (e : α) :
    Option (Scratch → Scratch) :=
  firstMatch (business ++ [(fun _ => true, on_unknown_scratch)]) e

/-!
Registration-time checks and the user upsert.
-/

/-- The settings of a `telegram.ext.ConversationHandler` checked by
`PersistentDispatcher.add_handler`. -/
structure ConvHandlerCfg where
  per_user : Bool
  per_chat : Bool
  per_message : Bool
  persistent : Bool
deriving DecidableEq

/-- Embeds the check chain of `PersistentDispatcher.add_handler`: when the
persistence object is a `YDBPersistence` and the handler a
`ConversationHandler`, each incompatible setting raises a `ValueError`
(in source order), before any event is processed. -/
def add_handler_check (persistenceIsYDB : Bool) (isConvHandler : Bool)
    (c : ConvHandlerCfg) : Except String Unit :=
  if persistenceIsYDB && isConvHandler then
    if !c.per_user then
      Except.error "YDBPersistence requires per_user=True for ConversationHandler"
    else if c.per_chat then
      Except.error "YDBPersistence requires per_chat=False for ConversationHandler"
    else if c.per_message then
      Except.error "YDBPersistence requires per_message=False for ConversationHandler"
    else if !c.persistent then
      Except.error "ConversationHandler is not persistent"
    else Except.ok ()
  else Except.ok ()

/-- The identity fields of `update.effective_user` read by
`YDBClient.upsert_new_user`; last name and username are optional. -/
structure EffectiveUser where
  id : Nat
  first_name : String
  last_name : Option String
  username : Option String

/-- Embeds `YDBClient.upsert_new_user` under YDB `UPSERT` semantics: the
column list always holds `user_id` and `first_name`, plus `last_name` and
`username` exactly when present on the event.  For an existing key only the
listed columns are overwritten; otherwise a new row is inserted with `NULL`
in every unlisted column. -/
def upsert_new_user (tbl : List (Nat × UserRow)) (u : EffectiveUser) : List (Nat × UserRow) :=
  match natGet tbl u.id with
  | some r =>
      natSet tbl u.id
        { r with
          first_name := some u.first_name
          last_name := match u.last_name with | some ln => some ln | none => r.last_name
          username := match u.username with | some un => some un | none => r.username }
  | none =>
      tbl ++ [(u.id,
        { first_name := some u.first_name
          last_name := u.last_name
          username := u.username
          usage := none
          persistence_data := none
          meetings_ts := none })]

/-!
Derived accessors and helper lemmas.
-/

/-- Effective conversation state of `name` for `uid` in a conversation
dictionary: the stored value unless it is absent or `None`. -/
def storedStateL (l : List (String × List (Nat × Val))) (n : String) (uid : Nat) : Option Val :=
  (dictGet l n).bind (fun inner =>
    (natGet inner uid).bind (fun v => if v = Val.null then none else some v))

/-- Effective conversation state in a persistence state. -/
def storedState (p : PState) (n : String) (uid : Nat) : Option Val :=
  storedStateL p.conversations n uid

/-- The state a document records for conversation `n`: the entry of its
`'conversations'` object, when that key is present. -/
def docConvState (d : DocObj) (n : String) : Option Val :=
  match dictGet d "conversations" with
  | some (Val.obj cs) => dictGet cs n
  | _ => none

theorem dictGet_eq_none_iff {β : Type} (d : List (String × β)) (k : String) :
    dictGet d k = none ↔ k ∉ d.map Prod.fst := by
  induction d with
  | nil => simp [dictGet]
  | cons x rest ih =>
      by_cases h : x.1 = k
      · simp [dictGet, h]
      · rw [dictGet, if_neg h]
        simp only [List.map_cons, List.mem_cons, not_or, ih]
        constructor
        · intro hn
          exact ⟨fun hc => h hc.symm, hn⟩
        · exact And.right

theorem dictGet_append_left {β : Type} (a b : List (String × β)) (k : String) (v : β)
    (h : dictGet a k = some v) : dictGet (a ++ b) k = some v := by
  induction a with
  | nil => simp [dictGet] at h
  | cons x rest ih =>
      by_cases hx : x.1 = k
      · simp [dictGet, hx] at h ⊢
        exact h
      · simp [dictGet, hx] at h ⊢
        exact ih h

theorem dictGet_append_right {β : Type} (a b : List (String × β)) (k : String)
    (h : dictGet a k = none) : dictGet (a ++ b) k = dictGet b k := by
  induction a with
  | nil => simp
  | cons x rest ih =>
      by_cases hx : x.1 = k
      · simp [dictGet, hx] at h
      · simp [dictGet, hx] at h ⊢
        exact ih h

theorem dictSet_fresh {β : Type} (d : List (String × β)) (k : String) (v : β)
    (h : dictGet d k = none) : dictSet d k v = d ++ [(k, v)] := by
  induction d with
  | nil => simp [dictSet]
  | cons x rest ih =>
      by_cases hx : x.1 = k
      · simp [dictGet, hx] at h
      · simp [dictGet, hx] at h
        simp [dictSet, hx, ih h]

theorem keys_dictSet_of_mem {β : Type} (d : List (String × β)) (k : String) (v w : β)
    (h : dictGet d k = some w) : (dictSet d k v).map Prod.fst = d.map Prod.fst := by
  induction d with
  | nil => simp [dictGet] at h
  | cons x rest ih =>
      by_cases hx : x.1 = k
      · simp [dictSet, hx]
      · simp [dictGet, hx] at h
        simp [dictSet, hx, ih h]

/-- `update_conversation` never touches the scratch dictionaries. -/
theorem update_conversation_userData (p : PState) (n : String) (k : Nat) (st : Val) :
    (update_conversation p n k st).userData = p.userData := by
  unfold update_conversation
  dsimp only
  split <;> split <;> rfl

/-- Fold form of `update_conversation_userData` over the transitions recorded
during one dispatch. -/
theorem foldl_update_conversation_userData (l : List (String × Val)) (p : PState) (uid : Nat) :
    ((l.foldl (fun q x => update_conversation q x.1 uid x.2) p)).userData = p.userData := by
  induction l generalizing p with
  | nil => rfl
  | cons x rest ih => simp [List.foldl, ih, update_conversation_userData]

/-- `end_conversations` never touches the scratch dictionaries. -/
theorem end_conversations_userData (p : PState) (names : List String) (uid : Nat) :
    (end_conversations p names uid).userData = p.userData := by
  induction names generalizing p with
  | nil => rfl
  | cons m rest ih =>
      have hstep : end_conversations p (m :: rest) uid
          = end_conversations (update_conversation p m uid Val.null) rest uid := rfl
      rw [hstep, ih, update_conversation_userData]

/-- Closed form of `update_conversation` for a conversation name not yet in
the dictionary. -/
theorem update_conversation_of_none (p : PState) (n : String) (uid : Nat) (st : Val)
    (hg : dictGet p.conversations n = none) :
    update_conversation p n uid st =
      (if Val.null = st then { p with conversations := p.conversations ++ [(n, [])] }
       else { p with conversations := dictSet (p.conversations ++ [(n, [])]) n [(uid, st)] }) := by
  have hfresh : dictGet (p.conversations ++ [(n, [])]) n = some [] := by
    rw [dictGet_append_right _ _ _ hg]
    simp [dictGet]
  unfold update_conversation
  rw [hg]
  simp only [Option.isSome_none, Bool.false_eq_true, if_false, hfresh, Option.getD_some,
    natGet, Option.getD_none, natSet]

/-- Closed form of `update_conversation` for a conversation name already in
the dictionary. -/
theorem update_conversation_of_some (p : PState) (n : String) (uid : Nat) (st : Val)
    (inner : List (Nat × Val)) (hg : dictGet p.conversations n = some inner) :
    update_conversation p n uid st =
      (if (natGet inner uid).getD Val.null = st then p
       else { p with conversations := dictSet p.conversations n (natSet inner uid st) }) := by
  unfold update_conversation
  simp only [hg, Option.isSome_some, if_true, Option.getD_some]

/-- After `update_conversation`, the effective state of the touched
conversation is the new state (collapsed to absent on `None`). -/
theorem storedState_update_self (p : PState) (n : String) (uid : Nat) (st : Val) :
    storedState (update_conversation p n uid st) n uid
      = (if st = Val.null then none else some st) := by
  rcases hg : dictGet p.conversations n with _ | inner0
  · have hfresh : dictGet (p.conversations ++ [(n, [])]) n = some [] := by
      rw [dictGet_append_right _ _ _ hg]
      simp [dictGet]
    rw [update_conversation_of_none _ _ _ _ hg]
    by_cases hnull : Val.null = st
    · rw [if_pos hnull]
      simp [storedState, storedStateL, hfresh, natGet, ← hnull]
    · have hstnull : ¬ st = Val.null := fun hc => hnull hc.symm
      rw [if_neg hnull]
      simp [storedState, storedStateL, dictGet_dictSet_self, natGet, hstnull]
  · rw [update_conversation_of_some _ _ _ _ _ hg]
    by_cases heq : (natGet inner0 uid).getD Val.null = st
    · rw [if_pos heq]
      rcases hn : natGet inner0 uid with _ | v
      · have hnull : Val.null = st := by
          rw [hn] at heq
          simpa using heq
        simp [storedState, storedStateL, hg, hn, ← hnull]
      · have hv : v = st := by
          rw [hn] at heq
          simpa using heq
        subst hv
        simp [storedState, storedStateL, hg, hn]
    · rw [if_neg heq]
      simp [storedState, storedStateL, dictGet_dictSet_self, natGet_natSet_self]

/-- `update_conversation` leaves every other conversation's effective state
unchanged. -/
theorem storedState_update_other (p : PState) (n n' : String) (uid : Nat) (st : Val)
    (h : n' ≠ n) :
    storedState (update_conversation p n uid st) n' uid = storedState p n' uid := by
  have hne : ¬ n = n' := fun hc => h hc.symm
  rcases hg : dictGet p.conversations n with _ | inner0
  · have hconvs1 : dictGet (p.conversations ++ [(n, [])]) n' = dictGet p.conversations n' := by
      rcases hg' : dictGet p.conversations n' with _ | w
      · rw [dictGet_append_right _ _ _ hg']
        simp [dictGet, hne]
      · exact dictGet_append_left _ _ _ _ hg'
    rw [update_conversation_of_none _ _ _ _ hg]
    split
    · simp [storedState, storedStateL, hconvs1]
    · simp only [storedState, storedStateL]
      rw [dictGet_dictSet_ne _ _ _ _ hne, hconvs1]
  · rw [update_conversation_of_some _ _ _ _ _ hg]
    split
    · rfl
    · simp only [storedState, storedStateL]
      rw [dictGet_dictSet_ne _ _ _ _ hne]

/-- Conversation-name uniqueness is preserved by `update_conversation`. -/
theorem nodup_update_conversation (p : PState) (n : String) (uid : Nat) (st : Val)
    (h : (p.conversations.map Prod.fst).Nodup) :
    ((update_conversation p n uid st).conversations.map Prod.fst).Nodup := by
  rcases hg : dictGet p.conversations n with _ | inner
  · have hmem : n ∉ p.conversations.map Prod.fst := (dictGet_eq_none_iff _ _).mp hg
    have hfresh : dictGet (p.conversations ++ [(n, [])]) n = some [] := by
      rw [dictGet_append_right _ _ _ hg]
      simp [dictGet]
    have hnodup1 : ((p.conversations ++ [(n, [])]).map Prod.fst).Nodup := by
      have hdisj : (p.conversations.map Prod.fst).Disjoint ([(n, ([] : List (Nat × Val)))].map Prod.fst) := by
        intro a ha hb
        simp only [List.map_cons, List.map_nil, List.mem_singleton] at hb
        subst hb
        exact hmem ha
      rw [List.map_append]
      exact h.append (List.nodup_singleton _) hdisj
    rw [update_conversation_of_none _ _ _ _ hg]
    split
    · exact hnodup1
    · rw [keys_dictSet_of_mem _ _ _ _ hfresh]
      exact hnodup1
  · rw [update_conversation_of_some _ _ _ _ _ hg]
    split
    · exact h
    · rw [keys_dictSet_of_mem _ _ _ _ hg]
      exact h

/-- Lookup in the order-preserving filter agrees with the effective stored
state, provided conversation names are unique. -/
theorem dictGet_convFilter (l : List (String × List (Nat × Val))) (uid : Nat) (n : String)
    (hnd : (l.map Prod.fst).Nodup) :
    dictGet (convFilter l uid) n = storedStateL l n uid := by
  induction l with
  | nil => simp [convFilter, storedStateL, dictGet]
  | cons x rest ih =>
      have hnd' : (rest.map Prod.fst).Nodup := by
        simp only [List.map_cons, List.nodup_cons] at hnd
        exact hnd.2
      have hx : x.1 ∉ rest.map Prod.fst := by
        simp only [List.map_cons, List.nodup_cons] at hnd
        exact hnd.1
      by_cases hn : x.1 = n
      · subst hn
        have hrest : storedStateL rest x.1 uid = none := by
          have : dictGet rest x.1 = none := (dictGet_eq_none_iff _ _).mpr hx
          simp [storedStateL, this]
        rcases hnat : natGet x.2 uid with _ | v
        · have hcf : convFilter (x :: rest) uid = convFilter rest uid := by
            simp [convFilter, hnat]
          rw [hcf, ih hnd', hrest]
          simp [storedStateL, dictGet, hnat]
        · by_cases hnull : v = Val.null
          · have hcf : convFilter (x :: rest) uid = convFilter rest uid := by
              simp [convFilter, hnat, hnull]
            rw [hcf, ih hnd', hrest]
            simp [storedStateL, dictGet, hnat, hnull]
          · have hcf : convFilter (x :: rest) uid = (x.1, v) :: convFilter rest uid := by
              simp [convFilter, hnat, hnull]
            rw [hcf]
            simp [storedStateL, dictGet, hnat, hnull]
      · have htail : dictGet (convFilter (x :: rest) uid) n = dictGet (convFilter rest uid) n := by
          rcases hnat : natGet x.2 uid with _ | v
          · simp [convFilter, hnat]
          · by_cases hnull : v = Val.null
            · simp [convFilter, hnat, hnull]
            · simp [convFilter, hnat, hnull, dictGet, hn]
        rw [htail, ih hnd']
        simp [storedStateL, dictGet, hn]

/-- The `dict.update` accumulation of `_dump_into_json` coincides with the
order-preserving filter when conversation names are unique. -/
theorem dumpConvs_eq_convFilter (p : PState) (uid : Nat)
    (hnd : (p.conversations.map Prod.fst).Nodup) :
    dumpConvs p uid = convFilter p.conversations uid := by
  have main : ∀ (l : List (String × List (Nat × Val))) (acc : List (String × Val)),
      (l.map Prod.fst).Nodup →
      (∀ n ∈ l.map Prod.fst, dictGet acc n = none) →
      l.foldl (dumpStep uid) acc = acc ++ convFilter l uid := by
    intro l
    induction l with
    | nil =>
        intro acc _ _
        simp [convFilter]
    | cons x rest ih =>
        intro acc hnd hacc
        have hnd' : (rest.map Prod.fst).Nodup := by
          simp only [List.map_cons, List.nodup_cons] at hnd
          exact hnd.2
        have hx : x.1 ∉ rest.map Prod.fst := by
          simp only [List.map_cons, List.nodup_cons] at hnd
          exact hnd.1
        have haccx : dictGet acc x.1 = none := hacc x.1 (by simp)
        have hfold : (x :: rest).foldl (dumpStep uid) acc
            = rest.foldl (dumpStep uid) (dumpStep uid acc x) := rfl
        rcases hnat : natGet x.2 uid with _ | v
        · have hone : dumpStep uid acc x = acc := by
            simp [dumpStep, hnat]
          rw [hfold, hone, ih acc hnd' (fun n hn => hacc n (by simp [hn]))]
          simp [convFilter, hnat]
        · by_cases hnull : v = Val.null
          · have hone : dumpStep uid acc x = acc := by
              simp [dumpStep, hnat, hnull]
            rw [hfold, hone, ih acc hnd' (fun n hn => hacc n (by simp [hn]))]
            simp [convFilter, hnat, hnull]
          · have hone : dumpStep uid acc x = acc ++ [(x.1, v)] := by
              simp [dumpStep, hnat, hnull, dictSet_fresh _ _ _ haccx]
            have hacc' : ∀ n ∈ rest.map Prod.fst, dictGet (acc ++ [(x.1, v)]) n = none := by
              intro n hn
              have hnx : ¬ x.1 = n := by
                intro hc
                exact hx (hc ▸ hn)
              rw [dictGet_append_right _ _ _ (hacc n (by simp [hn]))]
              simp [dictGet, hnx]
            rw [hfold, hone, ih _ hnd' hacc']
            simp [convFilter, hnat, hnull]
  have hmain := main p.conversations [] hnd (fun n _ => rfl)
  simpa [dumpConvs] using hmain

/-- Conversation-name uniqueness is preserved by the dispatch-recorded
transition fold. -/
theorem nodup_foldl_update_conversation (l : List (String × Val)) (p : PState) (uid : Nat)
    (h : (p.conversations.map Prod.fst).Nodup) :
    (((l.foldl (fun q x => update_conversation q x.1 uid x.2) p)).conversations.map Prod.fst).Nodup := by
  induction l generalizing p with
  | nil => exact h
  | cons x rest ih => exact ih _ (nodup_update_conversation _ _ _ _ h)

/-- Conversation-name uniqueness is preserved by `end_conversations`. -/
theorem nodup_end_conversations (names : List String) (p : PState) (uid : Nat)
    (h : (p.conversations.map Prod.fst).Nodup) :
    ((end_conversations p names uid).conversations.map Prod.fst).Nodup := by
  induction names generalizing p with
  | nil => exact h
  | cons m rest ih => exact ih _ (nodup_update_conversation _ _ _ _ h)

/-- `end_conversations` does not change the effective state of a
conversation that is not in the ended list. -/
theorem storedState_end_conversations_notmem (names : List String) (p : PState)
    (uid : Nat) (n : String) (h : n ∉ names) :
    storedState (end_conversations p names uid) n uid = storedState p n uid := by
  induction names generalizing p with
  | nil => rfl
  | cons m rest ih =>
      have hstep : end_conversations p (m :: rest) uid
          = end_conversations (update_conversation p m uid Val.null) rest uid := rfl
      have hn : n ∉ rest := fun hc => h (List.mem_cons_of_mem _ hc)
      have hnm : n ≠ m := fun hc => h (hc ▸ List.mem_cons_self _ _)
      rw [hstep, ih _ hn, storedState_update_other _ _ _ _ _ hnm]

/-- After `end_conversations`, every ended conversation's effective state is
absent. -/
theorem storedState_end_conversations (names : List String) (p : PState) (uid : Nat)
    (n : String) (h : n ∈ names) :
    storedState (end_conversations p names uid) n uid = none := by
  induction names generalizing p with
  | nil => cases h
  | cons m rest ih =>
      have hstep : end_conversations p (m :: rest) uid
          = end_conversations (update_conversation p m uid Val.null) rest uid := rfl
      by_cases hn : n ∈ rest
      · rw [hstep]
        exact ih _ hn
      · have hnm : n = m := by
          rcases List.mem_cons.mp h with hh | hh
          · exact hh
          · exact absurd hh hn
        subst hnm
        rw [hstep, storedState_end_conversations_notmem _ _ _ _ hn,
          storedState_update_self]
        simp

/-- The scratch entry for `uid` after a full dispatch is the mutated scratch
dict. -/
theorem dispatchEffect_userData (p : PState) (uid : Nat) (mutate : Scratch → Scratch)
    (convUpd : List (String × Val)) :
    natGet (dispatchEffect p uid mutate convUpd).userData uid
      = some (mutate ((natGet p.userData uid).getD [])) := by
  show natGet (update_user_data
      (convUpd.foldl (fun q x => update_conversation q x.1 uid x.2) p) uid
      (mutate ((natGet p.userData uid).getD []))).userData uid = _
  unfold update_user_data
  split
  · assumption
  · exact natGet_natSet_self _ _ _

/-- The conversation dictionary after a full dispatch is the fold of the
recorded transitions. -/
theorem dispatchEffect_conversations (p : PState) (uid : Nat) (mutate : Scratch → Scratch)
    (convUpd : List (String × Val)) :
    (dispatchEffect p uid mutate convUpd).conversations
      = ((convUpd.foldl (fun q x => update_conversation q x.1 uid x.2) p)).conversations := by
  show (update_user_data
      (convUpd.foldl (fun q x => update_conversation q x.1 uid x.2) p) uid
      (mutate ((natGet p.userData uid).getD []))).conversations = _
  unfold update_user_data
  split
  · rfl
  · rfl

/-- Every key of a dumped document is one of the two section names. -/
theorem dump_keys (p : PState) (uid : Nat) (k : String) (v : Val)
    (h : (k, v) ∈ dump_into_json p uid) : k = "user_data" ∨ k = "conversations" := by
  have hmem : (k, v) ∈
      (match natGet p.userData uid with
        | some ud => [("user_data", Val.obj ud)]
        | none => ([] : DocObj)) ++
      (if dumpConvs p uid = [] then ([] : DocObj)
       else [("conversations", Val.obj (dumpConvs p uid))]) := h
  rcases List.mem_append.mp hmem with h1 | h2
  · left
    rcases hu : natGet p.userData uid with _ | ud
    · rw [hu] at h1
      cases h1
    · rw [hu] at h1
      simp only [List.mem_singleton] at h1
      exact congrArg Prod.fst h1
  · right
    by_cases hc : dumpConvs p uid = []
    · rw [if_pos hc] at h2
      cases h2
    · rw [if_neg hc] at h2
      simp only [List.mem_singleton] at h2
      exact congrArg Prod.fst h2

/-- The `'conversations'` key of a dumped document: present with the filtered
states exactly when some state survives. -/
theorem dump_get_conversations (p : PState) (uid : Nat) :
    dictGet (dump_into_json p uid) "conversations"
      = (if dumpConvs p uid = [] then none else some (Val.obj (dumpConvs p uid))) := by
  unfold dump_into_json
  have hud : ∀ l : DocObj,
      (l = [] ∨ l = [("user_data", Val.obj ((natGet p.userData uid).getD []))]) →
      dictGet (l ++ (if dumpConvs p uid = [] then []
        else [("conversations", Val.obj (dumpConvs p uid))])) "conversations"
      = (if dumpConvs p uid = [] then none else some (Val.obj (dumpConvs p uid))) := by
    intro l hl
    have hnone : dictGet l "conversations" = none := by
      rcases hl with hl | hl <;> subst hl <;> simp [dictGet]
    rw [dictGet_append_right _ _ _ hnone]
    by_cases hc : dumpConvs p uid = []
    · simp [hc, dictGet]
    · simp [hc, dictGet]
  rcases hu : natGet p.userData uid with _ | ud
  · exact hud [] (Or.inl rfl)
  · have := hud [("user_data", Val.obj ud)] (by rw [hu]; simp)
    simpa using this

/-- The `'user_data'` key of a dumped document: present exactly when the
user has a scratch entry, empty or not. -/
theorem dump_get_user_data (p : PState) (uid : Nat) :
    dictGet (dump_into_json p uid) "user_data"
      = (natGet p.userData uid).map Val.obj := by
  unfold dump_into_json
  rcases hu : natGet p.userData uid with _ | ud
  · simp only [Option.map_none]
    by_cases hc : dumpConvs p uid = []
    · simp [hc, dictGet]
    · simp [hc, dictGet]
  · simp only [Option.map_some]
    have : dictGet ([("user_data", Val.obj ud)]
        ++ (if dumpConvs p uid = [] then []
            else [("conversations", Val.obj (dumpConvs p uid))])) "user_data"
        = some (Val.obj ud) :=
      dictGet_append_left _ _ _ _ (by simp [dictGet])
    simpa using this

/-- `popFlags` on a user with a scratch entry: the two flag values and the
flag-stripped dict written back. -/
theorem popFlags_of_some (p : PState) (uid : Nat) (s : Scratch)
    (h : natGet p.userData uid = some s) :
    popFlags p uid
      = (((dictGet s "UNKNOWN").map truthy).getD false,
         ((dictGet (dictRemove s "UNKNOWN") "ERROR").map truthy).getD false,
         { p with userData :=
            natSet p.userData uid (dictRemove (dictRemove s "UNKNOWN") "ERROR") }) := by
  unfold popFlags
  rw [h]

/-- The invocation stops at the single read when `get_data` raises. -/
theorem invocation_of_error (tbl : List (Nat × UserRow)) (uid : Nat)
    (mutate : Scratch → Scratch) (convUpd : List (String × Val)) (convNames : List String)
    (msg : String)
    (hg : get_data_result ((selectRows tbl uid).map (fun r => r.persistence_data))
      = Except.error msg) :
    invocation tbl uid mutate convUpd convNames
      = ⟨[readPrepared uid], false, false, false, tbl, none⟩ := by
  unfold invocation
  rw [hg]

/-- The invocation runs the full pipeline on a loaded document. -/
theorem invocation_of_ok (tbl : List (Nat × UserRow)) (uid : Nat)
    (mutate : Scratch → Scratch) (convUpd : List (String × Val)) (convNames : List String)
    (doc : DocObj)
    (hg : get_data_result ((selectRows tbl uid).map (fun r => r.persistence_data))
      = Except.ok doc) :
    invocation tbl uid mutate convUpd convNames
      = invocationCore tbl uid mutate convUpd convNames doc := by
  unfold invocation
  rw [hg]

/-- On a set `ERROR` flag the completed invocation is the wipe shape. -/
theorem invocationCore_of_error_flag (tbl : List (Nat × UserRow)) (uid : Nat)
    (mutate : Scratch → Scratch) (convUpd : List (String × Val)) (convNames : List String)
    (doc : DocObj) (he : (invFlags uid mutate convUpd doc).2.1 = true) :
    invocationCore tbl uid mutate convUpd convNames doc
      = ⟨[readPrepared uid, wipePrepared uid], true,
          (invFlags uid mutate convUpd doc).1, true, apply_wipe tbl uid, none⟩ := by
  unfold invocationCore
  dsimp only
  rw [he]
  simp

/-- On a clear `ERROR` flag the completed invocation is the save shape,
writing the dump of the final persistence state. -/
theorem invocationCore_of_no_error (tbl : List (Nat × UserRow)) (uid : Nat)
    (mutate : Scratch → Scratch) (convUpd : List (String × Val)) (convNames : List String)
    (doc : DocObj) (he : (invFlags uid mutate convUpd doc).2.1 = false) :
    invocationCore tbl uid mutate convUpd convNames doc
      = ⟨[readPrepared uid,
          savePrepared uid (dump_into_json (invFinalState uid mutate convUpd convNames doc) uid)],
          true, (invFlags uid mutate convUpd doc).1, false,
          apply_save tbl uid (dump_into_json (invFinalState uid mutate convUpd convNames doc) uid),
          some (dump_into_json (invFinalState uid mutate convUpd convNames doc) uid)⟩ := by
  unfold invocationCore
  dsimp only
  rw [he]
  simp

theorem isReadQuery_read (uid : Nat) : isReadQuery (readPrepared uid) = true := by
  rfl

theorem isReadQuery_wipe (uid : Nat) : isReadQuery (wipePrepared uid) = false := by
  rfl

theorem isReadQuery_save (uid : Nat) (d : DocObj) : isReadQuery (savePrepared uid d) = false := by
  rfl

theorem isWriteQuery_read (uid : Nat) : isWriteQuery (readPrepared uid) = false := by
  rfl

theorem isWriteQuery_wipe (uid : Nat) : isWriteQuery (wipePrepared uid) = true := by
  rfl

theorem isWriteQuery_save (uid : Nat) (d : DocObj) : isWriteQuery (savePrepared uid d) = true := by
  rfl

/-- A successful lookup pinpoints a member of the dictionary. -/
theorem dictGet_some_mem {β : Type} (d : List (String × β)) (k : String) (v : β)
    (h : dictGet d k = some v) : (k, v) ∈ d := by
  induction d with
  | nil => simp [dictGet] at h
  | cons x rest ih =>
      by_cases hx : x.1 = k
      · simp only [dictGet, hx, if_true] at h
        rcases x with ⟨a, b⟩
        cases Option.some.inj h
        cases hx
        exact List.mem_cons_self _ _
      · simp only [dictGet, hx, if_false] at h
        exact List.mem_cons_of_mem _ (ih h)

/-- `update_user_data` never touches the conversation dictionaries. -/
theorem update_user_data_conversations (p : PState) (uid : Nat) (d : Scratch) :
    (update_user_data p uid d).conversations = p.conversations := by
  unfold update_user_data
  split <;> rfl

/-- Re-pushing the scratch dict already stored for `uid` is a no-op
(the equality early-return of `DictPersistence.update_user_data`). -/
theorem update_user_data_refresh (p : PState) (uid : Nat) (s : Scratch)
    (h : natGet p.userData uid = some s) :
    update_user_data p uid ((natGet p.userData uid).getD []) = p := by
  unfold update_user_data
  rw [h]
  simp

/-- Scratch state loaded for the user at the start of the invocation. -/
def loadScratch (uid : Nat) (doc : DocObj) : Scratch :=
  (natGet (update_data ⟨[], []⟩ uid doc).userData uid).getD []

/-- The flag-stripped scratch dict after the two pops of
`index.process_update`. -/
def postPopScratch (uid : Nat) (mutate : Scratch → Scratch) (doc : DocObj) : Scratch :=
  dictRemove (dictRemove (mutate (loadScratch uid doc)) "UNKNOWN") "ERROR"

/-- Persistence state right after `Dispatcher.process_update`. -/
def pDispatch (uid : Nat) (mutate : Scratch → Scratch) (convUpd : List (String × Val))
    (doc : DocObj) : PState :=
  dispatchEffect (update_data ⟨[], []⟩ uid doc) uid mutate convUpd

/-- Closed form of the flag extraction. -/
theorem invFlags_eq (uid : Nat) (mutate : Scratch → Scratch) (convUpd : List (String × Val))
    (doc : DocObj) :
    invFlags uid mutate convUpd doc
      = (((dictGet (mutate (loadScratch uid doc)) "UNKNOWN").map truthy).getD false,
         ((dictGet (dictRemove (mutate (loadScratch uid doc)) "UNKNOWN") "ERROR").map
            truthy).getD false,
         { pDispatch uid mutate convUpd doc with
            userData := natSet (pDispatch uid mutate convUpd doc).userData uid
              (postPopScratch uid mutate doc) }) := by
  unfold invFlags pDispatch postPopScratch loadScratch
  exact popFlags_of_some _ _ _ (dispatchEffect_userData _ _ _ _)

/-- The flag-stripped scratch dict holds neither override flag. -/
theorem postPopScratch_no_flags (uid : Nat) (mutate : Scratch → Scratch) (doc : DocObj) :
    dictGet (postPopScratch uid mutate doc) "UNKNOWN" = none
    ∧ dictGet (postPopScratch uid mutate doc) "ERROR" = none := by
  constructor
  · unfold postPopScratch
    rw [dictGet_dictRemove_ne _ _ _ (by decide)]
    exact dictGet_dictRemove_self _ _
  · exact dictGet_dictRemove_self _ _

/-- The scratch entry serialized at the end of the invocation is exactly the
flag-stripped dict. -/
theorem invFinalState_userData (uid : Nat) (mutate : Scratch → Scratch)
    (convUpd : List (String × Val)) (convNames : List String) (doc : DocObj) :
    natGet (invFinalState uid mutate convUpd convNames doc).userData uid
      = some (postPopScratch uid mutate doc) := by
  unfold invFinalState
  rw [invFlags_eq]
  dsimp only
  have hp2 : natGet (natSet (pDispatch uid mutate convUpd doc).userData uid
      (postPopScratch uid mutate doc)) uid = some (postPopScratch uid mutate doc) :=
    natGet_natSet_self _ _ _
  split
  · rw [end_conversations_userData]
    split
    · unfold update_user_data
      simp [hp2]
    · exact hp2
  · split
    · unfold update_user_data
      simp [hp2]
    · exact hp2

/-- Every row selected for `uid` after the wipe write has both the document
cell and the meetings-timestamp cell `NULL`. -/
theorem selectRows_apply_wipe (tbl : List (Nat × UserRow)) (uid : Nat) :
    ∀ row ∈ selectRows (apply_wipe tbl uid) uid,
      row.persistence_data = none ∧ row.meetings_ts = none := by
  induction tbl with
  | nil =>
      intro row hrow
      simp [apply_wipe, selectRows] at hrow
  | cons x rest ih =>
      intro row hrow
      by_cases hx : x.1 = uid
      · have hshape : apply_wipe (x :: rest) uid
            = (x.1, { x.2 with persistence_data := none, meetings_ts := none })
              :: apply_wipe rest uid := by
          simp [apply_wipe, hx]
        rw [hshape] at hrow
        simp only [selectRows, hx, if_true] at hrow
        rcases List.mem_cons.mp hrow with h | h
        · subst h
          exact ⟨rfl, rfl⟩
        · exact ih row h
      · have hshape : apply_wipe (x :: rest) uid = x :: apply_wipe rest uid := by
          simp [apply_wipe, hx]
        rw [hshape] at hrow
        simp only [selectRows, hx, if_false] at hrow
        exact ih row hrow

/-!
The claims.
-/

/-- C1: every invocation issues exactly one persistence read query, as its
first query, and at most one persistence write query, which is everything
that follows the read; the engine never issues a second load or a second
persistence write within one invocation. -/
theorem claim_C1_one_read_one_write (tbl : List (Nat × UserRow)) (uid : Nat)
    (mutate : Scratch → Scratch) (convUpd : List (String × Val)) (convNames : List String) :
    ((invocation tbl uid mutate convUpd convNames).trace.filter isReadQuery).length = 1
    ∧ ((invocation tbl uid mutate convUpd convNames).trace.filter isWriteQuery).length ≤ 1
    ∧ (invocation tbl uid mutate convUpd convNames).trace.head? = some (readPrepared uid)
    ∧ (invocation tbl uid mutate convUpd convNames).trace.filter isWriteQuery
        = (invocation tbl uid mutate convUpd convNames).trace.drop 1 := by
  rcases hg : get_data_result ((selectRows tbl uid).map (fun r => r.persistence_data))
    with msg | doc
  · rw [invocation_of_error _ _ _ _ _ _ hg]
    refine ⟨?_, ?_, rfl, ?_⟩ <;>
      simp [List.filter_cons, isReadQuery_read, isWriteQuery_read]
  · rw [invocation_of_ok _ _ _ _ _ _ hg]
    rcases he : (invFlags uid mutate convUpd doc).2.1 with _ | _
    · rw [invocationCore_of_no_error _ _ _ _ _ _ he]
      refine ⟨?_, ?_, rfl, ?_⟩ <;>
        simp [List.filter_cons, isReadQuery_read, isWriteQuery_read, isReadQuery_save,
          isWriteQuery_save]
    · rw [invocationCore_of_error_flag _ _ _ _ _ _ he]
      refine ⟨?_, ?_, rfl, ?_⟩ <;>
        simp [List.filter_cons, isReadQuery_read, isWriteQuery_read, isReadQuery_wipe,
          isWriteQuery_wipe]

/-- Helper: more than one matching row always raises the integrity error. -/
theorem get_data_result_error_of_two (rows : List (Option DocObj)) (h : 2 ≤ rows.length) :
    get_data_result rows
      = Except.error "Table users has more than 1 row for user id" := by
  match rows with
  | [] => simp at h
  | [a] => simp at h
  | a :: b :: rest => cases a <;> rfl

/-- C7: fetching persisted data returns the empty state both for a missing
row and for a `NULL` cell (both merge as a no-op into the fresh working
state); a single JSON cell is returned parsed; more than one matching row
fails with the fatal integrity error, raised after the single read query
returned — the retrying executor is never re-entered, so the trace stops at
that one read and no write follows. -/
theorem claim_C7_get_data_cases (uid : Nat) :
    get_data_result [] = Except.ok []
    ∧ get_data_result [none] = Except.ok []
    ∧ (∀ d : DocObj, get_data_result [some d] = Except.ok d)
    ∧ update_data ⟨[], []⟩ uid [] = ⟨[], []⟩
    ∧ (∀ rows : List (Option DocObj), 2 ≤ rows.length →
        ∃ msg, get_data_result rows = Except.error msg)
    ∧ (∀ (tbl : List (Nat × UserRow)) (mutate : Scratch → Scratch)
        (convUpd : List (String × Val)) (convNames : List String),
        2 ≤ (selectRows tbl uid).length →
        (invocation tbl uid mutate convUpd convNames).trace = [readPrepared uid]
        ∧ (invocation tbl uid mutate convUpd convNames).ok = false) := by
  refine ⟨rfl, rfl, fun d => rfl, rfl, ?_, ?_⟩
  · intro rows h
    exact ⟨_, get_data_result_error_of_two rows h⟩
  · intro tbl mutate convUpd convNames h
    have hlen : 2 ≤ ((selectRows tbl uid).map (fun r => r.persistence_data)).length := by
      simpa using h
    have herr := get_data_result_error_of_two _ hlen
    rw [invocation_of_error _ _ _ _ _ _ herr]
    exact ⟨rfl, rfl⟩

/-- C8: across any two runs of the store adapter, each of the three
query texts is the same constant string, independent of the user id and of
the serialized blob; the user-supplied values appear only as the bound
parameters `$user_id` and `$data`. -/
theorem claim_C8_queries_constant_and_bound (u v : Nat) (d e : DocObj) :
    (readPrepared u).text = (readPrepared v).text
    ∧ (wipePrepared u).text = (wipePrepared v).text
    ∧ (savePrepared u d).text = (savePrepared v e).text
    ∧ (readPrepared u).params = [("$user_id", ParamVal.uid u)]
    ∧ (wipePrepared u).params = [("$user_id", ParamVal.uid u)]
    ∧ (savePrepared u d).params = [("$user_id", ParamVal.uid u), ("$data", ParamVal.json d)] :=
  ⟨rfl, rfl, rfl, rfl, rfl, rfl⟩

/-- C9: registering a conversation handler with `per_chat=true`,
`per_message=true`, `persistent=false`, or `per_user=false` under the
persistent dispatcher with a `YDBPersistence` fails with a configuration
error during `add_handler`, hence at registration time, before any event is
processed. -/
theorem claim_C9_registration_checks (c : ConvHandlerCfg)
    (h : c.per_chat = true ∨ c.per_message = true ∨ c.persistent = false
      ∨ c.per_user = false) :
    ∃ msg, add_handler_check true true c = Except.error msg := by
  rcases c with ⟨pu, pc, pm, ps⟩
  cases pu <;> cases pc <;> cases pm <;> cases ps <;>
    first
      | exact ⟨_, rfl⟩
      | simp at h

/-- Witness for C9 at the concrete configuration
`per_user=true, per_chat=true, per_message=false, persistent=true`. -/
theorem claim_C9_registration_checks_witness :
    ∃ msg, add_handler_check true true ⟨true, true, false, true⟩ = Except.error msg :=
  claim_C9_registration_checks ⟨true, true, false, true⟩ (Or.inl rfl)

/-- C10: for a user who already has a row, `upsert_new_user` rewrites only
the identity columns and leaves `usage`, `persistence_data` and
`meetings_ts` exactly as they were. -/
theorem claim_C10_upsert_frame (tbl : List (Nat × UserRow)) (u : EffectiveUser) (r : UserRow)
    (h : natGet tbl u.id = some r) :
    ∃ rnew, natGet (upsert_new_user tbl u) u.id = some rnew
      ∧ rnew.usage = r.usage
      ∧ rnew.persistence_data = r.persistence_data
      ∧ rnew.meetings_ts = r.meetings_ts
      ∧ rnew.first_name = some u.first_name
      ∧ rnew.last_name = (match u.last_name with | some ln => some ln | none => r.last_name)
      ∧ rnew.username = (match u.username with | some un => some un | none => r.username) := by
  unfold upsert_new_user
  rw [h]
  exact ⟨_, natGet_natSet_self _ _ _, rfl, rfl, rfl, rfl, rfl, rfl⟩

/-- Witness for C10: an existing row with populated non-identity columns is
untouched outside the identity columns. -/
theorem claim_C10_upsert_frame_witness :
    ∃ rnew, natGet (upsert_new_user
        [(3, ⟨some "Old", none, none, some 9, some [("user_data", Val.obj [])], some "ts"⟩)]
        ⟨3, "New", some "Ln", none⟩) 3 = some rnew
      ∧ rnew.usage = some 9
      ∧ rnew.persistence_data = some [("user_data", Val.obj [])]
      ∧ rnew.meetings_ts = some "ts"
      ∧ rnew.first_name = some "New"
      ∧ rnew.last_name = some "Ln"
      ∧ rnew.username = none := by
  have h := claim_C10_upsert_frame
    [(3, ⟨some "Old", none, none, some 9, some [("user_data", Val.obj [])], some "ts"⟩)]
    ⟨3, "New", some "Ln", none⟩
    ⟨some "Old", none, none, some 9, some [("user_data", Val.obj [])], some "ts"⟩
    (by rfl)
  simpa using h

/-- C3: whenever a handler fault set the `ERROR` flag, the single write at
the end of the invocation is the wipe query — setting the user's document
column and the meetings-timestamp column to `NULL` — regardless of every
scratch or conversation mutation made during the event, and also when the
`UNKNOWN` flag is set in the same invocation: the wipe wins over the
reset-and-flush path. -/
theorem claim_C3_fault_wipes (tbl : List (Nat × UserRow)) (uid : Nat)
    (mutate : Scratch → Scratch) (convUpd : List (String × Val)) (convNames : List String)
    (he : (invocation tbl uid mutate convUpd convNames).error = true) :
    (invocation tbl uid mutate convUpd convNames).trace
        = [readPrepared uid, wipePrepared uid]
    ∧ (invocation tbl uid mutate convUpd convNames).written = none
    ∧ (∀ row ∈ selectRows (invocation tbl uid mutate convUpd convNames).finalTable uid,
        row.persistence_data = none ∧ row.meetings_ts = none) := by
  rcases hg : get_data_result ((selectRows tbl uid).map (fun r => r.persistence_data))
    with msg | doc
  · rw [invocation_of_error _ _ _ _ _ _ hg] at he
    cases he
  · rw [invocation_of_ok _ _ _ _ _ _ hg] at he ⊢
    rcases hef : (invFlags uid mutate convUpd doc).2.1 with _ | _
    · rw [invocationCore_of_no_error _ _ _ _ _ _ hef] at he
      cases he
    · rw [invocationCore_of_error_flag _ _ _ _ _ _ hef]
      exact ⟨rfl, rfl, selectRows_apply_wipe tbl uid⟩

/-- Witness for C3: an invocation whose handlers set both override flags and
mutate the scratch dict still issues the wipe as its only write. -/
theorem claim_C3_fault_wipes_witness :
    (invocation [(7, ⟨some "f", none, none, some 2, some [("user_data", Val.obj [])], some "t"⟩)]
        7 (fun s => dictSet (dictSet (dictSet s "k" (Val.num 5)) "ERROR" (Val.bool true))
            "UNKNOWN" (Val.bool true)) [("C", Val.str "A")] ["C"]).trace
        = [readPrepared 7, wipePrepared 7]
    ∧ (invocation [(7, ⟨some "f", none, none, some 2, some [("user_data", Val.obj [])], some "t"⟩)]
        7 (fun s => dictSet (dictSet (dictSet s "k" (Val.num 5)) "ERROR" (Val.bool true))
            "UNKNOWN" (Val.bool true)) [("C", Val.str "A")] ["C"]).written = none
    ∧ (∀ row ∈ selectRows (invocation
          [(7, ⟨some "f", none, none, some 2, some [("user_data", Val.obj [])], some "t"⟩)]
          7 (fun s => dictSet (dictSet (dictSet s "k" (Val.num 5)) "ERROR" (Val.bool true))
              "UNKNOWN" (Val.bool true)) [("C", Val.str "A")] ["C"]).finalTable 7,
        row.persistence_data = none ∧ row.meetings_ts = none)
    ∧ (invocation [(7, ⟨some "f", none, none, some 2, some [("user_data", Val.obj [])], some "t"⟩)]
        7 (fun s => dictSet (dictSet (dictSet s "k" (Val.num 5)) "ERROR" (Val.bool true))
            "UNKNOWN" (Val.bool true)) [("C", Val.str "A")] ["C"]).unknown = true := by
  have h := claim_C3_fault_wipes
    [(7, ⟨some "f", none, none, some 2, some [("user_data", Val.obj [])], some "t"⟩)]
    7 (fun s => dictSet (dictSet (dictSet s "k" (Val.num 5)) "ERROR" (Val.bool true))
        "UNKNOWN" (Val.bool true)) [("C", Val.str "A")] ["C"] (by rfl)
  exact ⟨h.1, h.2.1, h.2.2, by rfl⟩

/-- C6: the document carried by the closing write holds at most the two
section keys — in particular never the row key `user_id` — and its scratch
section holds neither override flag: both were consumed and stripped before
serialization. -/
theorem claim_C6_no_row_key_no_flags (tbl : List (Nat × UserRow)) (uid : Nat)
    (mutate : Scratch → Scratch) (convUpd : List (String × Val)) (convNames : List String)
    (d : DocObj) (hw : (invocation tbl uid mutate convUpd convNames).written = some d) :
    (∀ k v, (k, v) ∈ d → k = "user_data" ∨ k = "conversations")
    ∧ dictGet d "user_id" = none
    ∧ (∀ ud, dictGet d "user_data" = some (Val.obj ud) →
        dictGet ud "UNKNOWN" = none ∧ dictGet ud "ERROR" = none) := by
  rcases hg : get_data_result ((selectRows tbl uid).map (fun r => r.persistence_data))
    with msg | doc
  · rw [invocation_of_error _ _ _ _ _ _ hg] at hw
    cases hw
  · rw [invocation_of_ok _ _ _ _ _ _ hg] at hw
    rcases hef : (invFlags uid mutate convUpd doc).2.1 with _ | _
    · rw [invocationCore_of_no_error _ _ _ _ _ _ hef] at hw
      have hd : d = dump_into_json (invFinalState uid mutate convUpd convNames doc) uid :=
        (Option.some.inj hw).symm
      subst hd
      refine ⟨fun k v hkv => dump_keys _ _ _ _ hkv, ?_, ?_⟩
      · rcases hq : dictGet
            (dump_into_json (invFinalState uid mutate convUpd convNames doc) uid)
            "user_id" with _ | w
        · rfl
        · rcases dump_keys _ _ _ _ (dictGet_some_mem _ _ _ hq) with hk | hk <;>
            exact absurd hk (by decide)
      · intro ud hud
        rw [dump_get_user_data, invFinalState_userData] at hud
        have hud' : ud = postPopScratch uid mutate doc := by
          have := Option.some.inj hud
          injection this with h1
          exact h1.symm
        subst hud'
        exact postPopScratch_no_flags uid mutate doc
    · rw [invocationCore_of_error_flag _ _ _ _ _ _ hef] at hw
      cases hw

/-- Witness for C6: a handler that sets the `UNKNOWN` flag next to ordinary
scratch data; the written document carries the data but no flag and no row
key. -/
theorem claim_C6_no_row_key_no_flags_witness :
    (∀ k v, (k, v) ∈ ([("user_data", Val.obj [("x", Val.num 1)])] : DocObj) →
        k = "user_data" ∨ k = "conversations")
    ∧ dictGet ([("user_data", Val.obj [("x", Val.num 1)])] : DocObj) "user_id" = none
    ∧ (∀ ud, dictGet ([("user_data", Val.obj [("x", Val.num 1)])] : DocObj) "user_data"
          = some (Val.obj ud) →
        dictGet ud "UNKNOWN" = none ∧ dictGet ud "ERROR" = none) :=
  claim_C6_no_row_key_no_flags [] 3
    (fun s => dictSet (dictSet s "UNKNOWN" (Val.bool true)) "x" (Val.num 1)) [] []
    [("user_data", Val.obj [("x", Val.num 1)])] (by rfl)

/-- Witness for C7 at concrete row sets: a parsed single-row fetch, a
duplicate-row integrity failure, and the trace of an invocation over a table
with two rows for the same user id. -/
theorem claim_C7_get_data_cases_witness :
    get_data_result [some [("user_data", Val.obj [("k", Val.num 1)])]]
        = Except.ok [("user_data", Val.obj [("k", Val.num 1)])]
    ∧ (∃ msg, get_data_result ([none, none] : List (Option DocObj)) = Except.error msg)
    ∧ (invocation [(5, ⟨none, none, none, none, none, none⟩),
          (5, ⟨none, none, none, none, none, none⟩)] 5 (fun s => s) [] []).trace
        = [readPrepared 5]
    ∧ (invocation [(5, ⟨none, none, none, none, none, none⟩),
          (5, ⟨none, none, none, none, none, none⟩)] 5 (fun s => s) [] []).ok = false := by
  have h := claim_C7_get_data_cases 5
  have hf := h.2.2.2.2.2 [(5, ⟨none, none, none, none, none, none⟩),
      (5, ⟨none, none, none, none, none, none⟩)] (fun s => s) [] [] (by decide)
  exact ⟨h.2.2.1 _, h.2.2.2.2.1 [none, none] (by decide), hf.1, hf.2⟩

/-- Updating a key that sits only at the final position of the dictionary
replaces that final binding. -/
theorem dictSet_append_fresh {β : Type} (a : List (String × β)) (k : String) (w v : β)
    (h : dictGet a k = none) : dictSet (a ++ [(k, w)]) k v = a ++ [(k, v)] := by
  induction a with
  | nil => simp [dictSet]
  | cons x rest ih =>
      by_cases hx : x.1 = k
      · simp [dictGet, hx] at h
      · simp only [dictGet, hx, if_false] at h
        simp [dictSet, hx, ih h]

/-- Loading fresh conversation states appends one singleton per-user entry
per conversation, in document order. -/
theorem foldl_update_conversation_fresh (uid : Nat) (cs : List (String × Val)) (p : PState)
    (hfresh : ∀ x ∈ cs, dictGet p.conversations x.1 = none)
    (hnd : (cs.map Prod.fst).Nodup)
    (hnn : ∀ x ∈ cs, x.2 ≠ Val.null) :
    (cs.foldl (fun q x => update_conversation q x.1 uid x.2) p).conversations
      = p.conversations ++ cs.map (fun x => (x.1, [(uid, x.2)])) := by
  induction cs generalizing p with
  | nil => simp
  | cons x rest ih =>
      have hx1 : dictGet p.conversations x.1 = none := hfresh x (by simp)
      have hxnn : x.2 ≠ Val.null := hnn x (by simp)
      have hnd' : (rest.map Prod.fst).Nodup := by
        simp only [List.map_cons, List.nodup_cons] at hnd
        exact hnd.2
      have hxmem : x.1 ∉ rest.map Prod.fst := by
        simp only [List.map_cons, List.nodup_cons] at hnd
        exact hnd.1
      have hstep : update_conversation p x.1 uid x.2
          = { p with conversations := p.conversations ++ [(x.1, [(uid, x.2)])] } := by
        rw [update_conversation_of_none _ _ _ _ hx1, if_neg (fun hc => hxnn hc.symm),
          dictSet_append_fresh _ _ _ _ hx1]
      have hfold : ((x :: rest).foldl (fun q x => update_conversation q x.1 uid x.2) p)
          = rest.foldl (fun q x => update_conversation q x.1 uid x.2)
              (update_conversation p x.1 uid x.2) := rfl
      rw [hfold, hstep]
      have hfresh' : ∀ y ∈ rest,
          dictGet ({ p with conversations := p.conversations ++ [(x.1, [(uid, x.2)])] } :
            PState).conversations y.1 = none := by
        intro y hy
        have hyx : ¬ x.1 = y.1 := by
          intro hc
          exact hxmem (hc ▸ List.mem_map_of_mem Prod.fst hy)
        dsimp only
        rw [dictGet_append_right _ _ _ (hfresh y (List.mem_cons_of_mem _ hy))]
        simp [dictGet, hyx]
      rw [ih _ hfresh' hnd' (fun y hy => hnn y (List.mem_cons_of_mem _ hy))]
      simp

/-- The per-user filter of freshly loaded singleton conversation entries
recovers the document's conversation section. -/
theorem convFilter_map_singleton (uid : Nat) (cs : List (String × Val))
    (hnn : ∀ x ∈ cs, x.2 ≠ Val.null) :
    convFilter (cs.map (fun x => (x.1, [(uid, x.2)]))) uid = cs := by
  induction cs with
  | nil => rfl
  | cons x rest ih =>
      have hxnn : x.2 ≠ Val.null := hnn x (by simp)
      have hconv : convFilter ((x.1, [(uid, x.2)]) :: rest.map (fun x => (x.1, [(uid, x.2)]))) uid
          = (x.1, x.2) :: convFilter (rest.map (fun x => (x.1, [(uid, x.2)]))) uid := by
        simp [convFilter, natGet, hxnn]
      simp only [List.map_cons, hconv, ih (fun y hy => hnn y (List.mem_cons_of_mem _ hy))]

/-- C2: loading a stored document with non-empty scratch and conversation
sections into a fresh working state and serializing it back, with no handler
mutation in between, returns the document unchanged.  The two side
conditions are facts about every stored document: JSON object keys are
unique, and `_dump_into_json` never emits a `null` state token. -/
theorem claim_C2_roundtrip (uid : Nat) (ud : Scratch) (cs : List (String × Val))
    (hud : ud ≠ []) (hcs : cs ≠ []) (hnd : (cs.map Prod.fst).Nodup)
    (hnn : ∀ x ∈ cs, x.2 ≠ Val.null) :
    dump_into_json
      (update_data ⟨[], []⟩ uid
        [("user_data", Val.obj ud), ("conversations", Val.obj cs)]) uid
      = [("user_data", Val.obj ud), ("conversations", Val.obj cs)] := by
  have hscratch : update_data ⟨[], []⟩ uid
        [("user_data", Val.obj ud), ("conversations", Val.obj cs)]
      = cs.foldl (fun q x => update_conversation q x.1 uid x.2)
          ⟨[(uid, ud)], []⟩ := rfl
  rw [hscratch]
  have hconvs := foldl_update_conversation_fresh uid cs ⟨[(uid, ud)], []⟩
    (fun x _ => rfl) hnd hnn
  have huser : (cs.foldl (fun q x => update_conversation q x.1 uid x.2)
      (⟨[(uid, ud)], []⟩ : PState)).userData = [(uid, ud)] :=
    foldl_update_conversation_userData _ _ _
  have hget : natGet (cs.foldl (fun q x => update_conversation q x.1 uid x.2)
      (⟨[(uid, ud)], []⟩ : PState)).userData uid = some ud := by
    rw [huser]
    simp [natGet]
  have hndmap : ((cs.map (fun x => (x.1, [(uid, x.2)]))).map Prod.fst).Nodup := by
    have : (cs.map (fun x => (x.1, [(uid, x.2)]))).map Prod.fst = cs.map Prod.fst := by
      simp
    rw [this]
    exact hnd
  have hdump : dumpConvs (cs.foldl (fun q x => update_conversation q x.1 uid x.2)
      (⟨[(uid, ud)], []⟩ : PState)) uid = cs := by
    rw [dumpConvs_eq_convFilter, hconvs]
    · simp only [List.nil_append]
      exact convFilter_map_singleton uid cs hnn
    · rw [hconvs]
      simpa using hndmap
  unfold dump_into_json
  rw [hget, hdump]
  dsimp only
  rw [if_neg hcs]
  rfl

/-- Witness for C2 at a concrete two-conversation document. -/
theorem claim_C2_roundtrip_witness :
    dump_into_json
      (update_data ⟨[], []⟩ 4
        [("user_data", Val.obj [("a", Val.num 1)]),
         ("conversations", Val.obj [("C", Val.str "A"), ("D", Val.num 2)])]) 4
      = [("user_data", Val.obj [("a", Val.num 1)]),
         ("conversations", Val.obj [("C", Val.str "A"), ("D", Val.num 2)])] :=
  claim_C2_roundtrip 4 [("a", Val.num 1)] [("C", Val.str "A"), ("D", Val.num 2)]
    (by decide) (by decide) (by decide) (by decide)

/-- `update_data_user` never touches the conversation dictionaries. -/
theorem update_data_user_conversations (p : PState) (uid : Nat) (data : DocObj) :
    (update_data_user p uid data).conversations = p.conversations := by
  unfold update_data_user
  split
  · rw [update_user_data_conversations]
  · rfl

/-- The conversation dictionary built by a load into a fresh state has
unique names (it is built by `update_conversation` from an empty dict). -/
theorem nodup_update_data (uid : Nat) (doc : DocObj) :
    ((update_data ⟨[], []⟩ uid doc).conversations.map Prod.fst).Nodup := by
  unfold update_data
  split
  · apply nodup_foldl_update_conversation
    rw [update_data_user_conversations]
    simp
  · rw [update_data_user_conversations]
    simp

/-- Conversation names stay unique through the dispatch. -/
theorem nodup_pDispatch (uid : Nat) (mutate : Scratch → Scratch)
    (convUpd : List (String × Val)) (doc : DocObj) :
    ((pDispatch uid mutate convUpd doc).conversations.map Prod.fst).Nodup := by
  unfold pDispatch
  rw [dispatchEffect_conversations]
  exact nodup_foldl_update_conversation _ _ _ (nodup_update_data uid doc)

/-- Conversation names stay unique all the way to serialization. -/
theorem nodup_invFinalState (uid : Nat) (mutate : Scratch → Scratch)
    (convUpd : List (String × Val)) (convNames : List String) (doc : DocObj) :
    ((invFinalState uid mutate convUpd convNames doc).conversations.map Prod.fst).Nodup := by
  unfold invFinalState
  rw [invFlags_eq]
  dsimp only
  split
  · apply nodup_end_conversations
    split
    · rw [update_user_data_conversations]
      exact nodup_pDispatch uid mutate convUpd doc
    · exact nodup_pDispatch uid mutate convUpd doc
  · split
    · rw [update_user_data_conversations]
      exact nodup_pDispatch uid mutate convUpd doc
    · exact nodup_pDispatch uid mutate convUpd doc

/-- On a set `UNKNOWN` flag, every registered conversation's effective state
is absent when serialization starts. -/
theorem storedState_invFinalState_unknown (uid : Nat) (mutate : Scratch → Scratch)
    (convUpd : List (String × Val)) (convNames : List String) (doc : DocObj) (n : String)
    (hu : (invFlags uid mutate convUpd doc).1 = true) (hn : n ∈ convNames) :
    storedState (invFinalState uid mutate convUpd convNames doc) n uid = none := by
  unfold invFinalState
  dsimp only
  rw [hu]
  simp only [if_pos rfl]
  exact storedState_end_conversations _ _ _ _ hn

/-- An absent effective state never reaches the dumped document. -/
theorem docConvState_dump_none (p : PState) (uid : Nat) (n : String)
    (hnd : (p.conversations.map Prod.fst).Nodup)
    (hs : storedState p n uid = none) :
    docConvState (dump_into_json p uid) n = none := by
  unfold docConvState
  rw [dump_get_conversations]
  by_cases hc : dumpConvs p uid = []
  · rw [if_pos hc]
  · rw [if_neg hc]
    show dictGet (dumpConvs p uid) n = none
    rw [dumpConvs_eq_convFilter _ _ hnd, dictGet_convFilter _ _ _ hnd]
    exact hs

/-- A prefix of matchers that all reject the event hands dispatch to the
rest of the group. -/
theorem firstMatch_append_of_none {α : Type} (l1 l2 : List ((α → Bool) × (Scratch → Scratch)))
    (ev : α) :
    (∀ b ∈ l1, b.1 ev = false) → firstMatch (l1 ++ l2) ev = firstMatch l2 ev := by
  induction l1 with
  | nil =>
      intro _
      rfl
  | cons b rest ih =>
      intro h
      have hb : b.1 ev = false := h b (List.mem_cons_self _ _)
      simp only [List.cons_append, firstMatch, hb, Bool.false_eq_true, if_false]
      exact ih (fun x hx => h x (List.mem_cons_of_mem _ hx))

/-- When every business matcher rejects the event, group 0 dispatches to the
catch-all `on_unknown`. -/
theorem routeGroup0_no_match {α : Type} (business : List ((α → Bool) × (Scratch → Scratch)))
    (ev : α) (h : ∀ b ∈ business, b.1 ev = false) :
    routeGroup0 business ev = some on_unknown_scratch := by
  unfold routeGroup0
  rw [firstMatch_append_of_none _ _ _ h]
  rfl

/-- C4: an event no business handler of the primary group matches is routed
to the catch-all, which sets the `UNKNOWN` flag; after such an invocation
(with no fault) the single closing write is issued even if nothing changed,
and the written document records no state for any registered conversation. -/
theorem claim_C4_unknown_resets {α : Type}
    (business : List ((α → Bool) × (Scratch → Scratch))) (ev : α)
    (tbl : List (Nat × UserRow)) (uid : Nat) (mutate : Scratch → Scratch)
    (convUpd : List (String × Val)) (convNames : List String)
    (hnm : ∀ b ∈ business, b.1 ev = false)
    (hu : (invocation tbl uid mutate convUpd convNames).unknown = true)
    (he : (invocation tbl uid mutate convUpd convNames).error = false)
    (hok : (invocation tbl uid mutate convUpd convNames).ok = true) :
    routeGroup0 business ev = some on_unknown_scratch
    ∧ (∀ s, dictGet (on_unknown_scratch s) "UNKNOWN" = some (Val.bool true))
    ∧ (∃ d, (invocation tbl uid mutate convUpd convNames).written = some d
        ∧ (invocation tbl uid mutate convUpd convNames).trace
            = [readPrepared uid, savePrepared uid d]
        ∧ ∀ n ∈ convNames, docConvState d n = none) := by
  refine ⟨routeGroup0_no_match business ev hnm,
    fun s => dictGet_dictSet_self _ _ _, ?_⟩
  rcases hg : get_data_result ((selectRows tbl uid).map (fun r => r.persistence_data))
    with msg | doc
  · rw [invocation_of_error _ _ _ _ _ _ hg] at hok
    cases hok
  · rw [invocation_of_ok _ _ _ _ _ _ hg] at hu he ⊢
    rcases hef : (invFlags uid mutate convUpd doc).2.1 with _ | _
    · rw [invocationCore_of_no_error _ _ _ _ _ _ hef] at hu ⊢
      refine ⟨_, rfl, rfl, ?_⟩
      intro n hn
      have hu2 : (invFlags uid mutate convUpd doc).1 = true := hu
      exact docConvState_dump_none _ _ _
        (nodup_invFinalState uid mutate convUpd convNames doc)
        (storedState_invFinalState_unknown uid mutate convUpd convNames doc n hu2 hn)
    · rw [invocationCore_of_error_flag _ _ _ _ _ _ hef] at he
      cases he

/-- Witness for C4: a one-matcher business group that rejects the event, and
an invocation whose handler effect is exactly `on_unknown`; the stored state
of the registered conversation "C" — even though a transition to "B" was
recorded during dispatch — is absent from the written document. -/
theorem claim_C4_unknown_resets_witness :
    routeGroup0 [(fun e => decide (e = 1), fun s => s)] (2 : Nat) = some on_unknown_scratch
    ∧ dictGet (on_unknown_scratch []) "UNKNOWN" = some (Val.bool true)
    ∧ (∃ d, (invocation [] 9 on_unknown_scratch [("C", Val.str "B")] ["C"]).written = some d
        ∧ (invocation [] 9 on_unknown_scratch [("C", Val.str "B")] ["C"]).trace
            = [readPrepared 9, savePrepared 9 d]
        ∧ ∀ n ∈ ["C"], docConvState d n = none) := by
  have h := claim_C4_unknown_resets [(fun e => decide (e = 1), fun s => s)] (2 : Nat)
    [] 9 on_unknown_scratch [("C", Val.str "B")] ["C"]
    (fun b hb => by
      rw [List.mem_singleton] at hb
      subst hb
      rfl)
    (by rfl) (by rfl) (by rfl)
  exact ⟨h.1, h.2.1 [], h.2.2⟩

/-- Counterexample for C5, exactly the scenario of the claim: a new user
(no row, empty scratch) starting conversation "C" at entry state "A".  The
document carried by the closing write is
`{"user_data": {}, "conversations": {"C": "A"}}` — not
`{"conversations": {"C": "A"}}` — because `_dump_into_json` emits the
`user_data` key whenever the user has a scratch entry, even an empty one
(the dispatcher's `defaultdict` materializes an empty dict for every
processed user), so the key is not omitted when its section is merely
empty. -/
theorem claim_C5_counterexample :
    (invocation [] 7 (fun s => s) [("C", Val.str "A")] ["C"]).written
        = some [("user_data", Val.obj []), ("conversations", Val.obj [("C", Val.str "A")])]
    ∧ (invocation [] 7 (fun s => s) [("C", Val.str "A")] ["C"]).written
        ≠ some [("conversations", Val.obj [("C", Val.str "A")])]
    ∧ natGet (PState.userData ⟨[(7, [])], []⟩) 7 = some []
    ∧ dictGet (dump_into_json ⟨[(7, [])], []⟩ 7) "user_data" = some (Val.obj []) := by
  refine ⟨by decide, by decide, rfl, by decide⟩

/-- C5 as amended: a dumped document has at most the two top-level keys
`user_data` and `conversations`; `conversations` is omitted exactly when no
state survives the per-user filter; `user_data` is omitted only when the
user has no scratch entry at all — an existing empty scratch mapping is
serialized as `"user_data": {}`.  Accordingly the new-user scenario stores
`{"user_data": {}, "conversations": {"C": "A"}}`, and the follow-up event
that moves "C" to its terminal state stores `{"user_data": {}}`, with no
`conversations` key. -/
theorem claim_C5_amended_document_shape (p : PState) (uid : Nat) :
    (∀ k v, (k, v) ∈ dump_into_json p uid → k = "user_data" ∨ k = "conversations")
    ∧ (dumpConvs p uid = [] → dictGet (dump_into_json p uid) "conversations" = none)
    ∧ (natGet p.userData uid = none → dictGet (dump_into_json p uid) "user_data" = none)
    ∧ (invocation [] 7 (fun s => s) [("C", Val.str "A")] ["C"]).written
        = some [("user_data", Val.obj []), ("conversations", Val.obj [("C", Val.str "A")])]
    ∧ (invocation [(7, ⟨none, none, none, none,
          some [("user_data", Val.obj []), ("conversations", Val.obj [("C", Val.str "A")])],
          none⟩)] 7 (fun s => s) [("C", Val.null)] ["C"]).written
        = some [("user_data", Val.obj [])] := by
  refine ⟨fun k v h => dump_keys _ _ _ _ h, ?_, ?_, by decide, by decide⟩
  · intro hc
    rw [dump_get_conversations, if_pos hc]
  · intro hn
    rw [dump_get_user_data, hn]
    rfl

/-- Witness for C5 (amended) at concrete persistence states: the
`conversations` key is omitted for a user with an empty filtered state, and
the `user_data` key is omitted for a user with no scratch entry. -/
theorem claim_C5_amended_document_shape_witness :
    dictGet (dump_into_json ⟨[(7, [])], []⟩ 7) "conversations" = none
    ∧ dictGet (dump_into_json ⟨[], []⟩ 7) "user_data" = none := by
  have h1 := claim_C5_amended_document_shape ⟨[(7, [])], []⟩ 7
  have h2 := claim_C5_amended_document_shape ⟨[], []⟩ 7
  exact ⟨h1.2.1 (by rfl), h2.2.2.1 (by rfl)⟩

end Holodok
